import Mathlib

/-!
Verification of the repository-sync pipeline of `repos` (cmd_sync.go).

The per-target procedure `syncRepo` shells out to `git`; we embed it as a
function over an `Env` record that supplies the result of each external
operation (`os.Stat` on a `.git` path, and each git subcommand's combined
output or error text).  An instrumented variant `syncRepoT` additionally
records the trace of external operations performed, so that short-circuit
and ordering properties can be stated.

The worker pool of `syncCmd.run` (a buffered channel pre-loaded with the
target directories, `parallel` workers draining it, a result channel closed
after all workers exit) is embedded as a small-step relation `PoolStep` on
a state holding the unclaimed queue, the multiset of claimed-but-unfinished
targets, and the list of emitted outcomes in arrival order.
-/

/-- Whitespace-trimming of a subprocess's combined output
(`bytes.TrimSpace`). -/
def trimSpace (s : String) : String :=
  String.mk (((s.toList.dropWhile Char.isWhitespace).reverse.dropWhile
    Char.isWhitespace).reverse)

/-- Go functions `filepath.Base` / `path.Base` for slash-separated paths: empty path
gives ".", trailing slashes are stripped, then the last element is taken;
an all-slash path gives "/". -/
def baseName (p : String) : String :=
  if p = "" then "." else
  let cs := p.toList.reverse.dropWhile (fun c => c = '/')
  if cs = [] then "/" else String.mk ((cs.takeWhile (fun c => c ≠ '/')).reverse)

/-- Go function `filepath.Join` on two elements (no cleaning beyond the join itself,
which is all the sync code relies on). -/
def joinPath (a b : String) : String := a ++ "/" ++ b

/-- Environment supplying the results of the external operations performed
by `syncRepo`: `os.Stat` existence checks and each git subcommand, keyed by
the working directory it is run in.  A git field returns `.ok` (the
combined output, where the code consumes it) or `.error` (the error text,
including any captured output the code appends). -/
structure Env where
  /-- Whether `os.Stat` on a path succeeds. -/
  stat : String → Bool
  /-- Result of `git rev-parse --short HEAD`, the first invocation (step 2). -/
  revParseHead1 : String → Except String String
  /-- Result of `git rev-parse --abbrev-ref origin/HEAD` (step 3). -/
  revParseOriginHead : String → Except String String
  /-- Result of `git checkout <branch>` (step 3), keyed by directory and branch. -/
  checkout : String → String → Except String Unit
  /-- Result of `git fetch --tags --prune --prune-tags --force --jobs=10` (step 4). -/
  fetch : String → Except String Unit
  /-- Result of `git merge --ff-only --autostash` (step 5). -/
  merge : String → Except String Unit
  /-- Result of `git worktree prune` (step 6). -/
  worktreePrune : String → Except String Unit
  /-- Result of `git rev-parse --short HEAD`, the second invocation (step 7). -/
  revParseHead2 : String → Except String String

/-- The external operations `syncRepo` can perform, in source order. -/
inductive Step where
  | statDefault
  | statSelf
  | revParseOld
  | revParseOriginHead
  | checkout
  | fetch
  | merge
  | worktreePrune
  | revParseNew
  deriving DecidableEq, Repr

/-- The spec's step number of each external operation (both stats belong to
step 1, determining the branch and switching to it both belong to step 3). -/
def stepIdx : Step → Nat
  | .statDefault => 1
  | .statSelf => 1
  | .revParseOld => 2
  | .revParseOriginHead => 3
  | .checkout => 3
  | .fetch => 4
  | .merge => 5
  | .worktreePrune => 6
  | .revParseNew => 7

/-- Record `syncResult` from cmd_sync.go: the outcome for one target directory. -/
structure syncResult where
  dir : String
  err : Option String
  oldRef : String
  newRef : String
  deriving DecidableEq, Repr

/-- The linear chain of git steps of `syncRepo` after the working directory
`wd` has been resolved, threading the trace of operations performed.
Mirrors the early-return chain of cmd_sync.go lines 128–188. -/
def syncSteps (env : Env) (base wd : String) (tr : List Step) :
    syncResult × List Step :=
  let tr := tr ++ [Step.revParseOld]
  match env.revParseHead1 wd with
  | .error e => (⟨base, some ("get old ref: " ++ e), "", ""⟩, tr)
  | .ok out =>
    let oldRef := trimSpace out
    let tr := tr ++ [Step.revParseOriginHead]
    match env.revParseOriginHead wd with
    | .error e => (⟨base, some ("get remote default branch: " ++ e), oldRef, ""⟩, tr)
    | .ok out2 =>
      let defaultBranch := baseName (trimSpace out2)
      let tr := tr ++ [Step.checkout]
      match env.checkout wd defaultBranch with
      | .error e => (⟨base, some ("switch to default branch: " ++ e), oldRef, ""⟩, tr)
      | .ok _ =>
        let tr := tr ++ [Step.fetch]
        match env.fetch wd with
        | .error e => (⟨base, some ("fetch: " ++ e), oldRef, ""⟩, tr)
        | .ok _ =>
          let tr := tr ++ [Step.merge]
          match env.merge wd with
          | .error e => (⟨base, some ("merge: " ++ e), oldRef, ""⟩, tr)
          | .ok _ =>
            let tr := tr ++ [Step.worktreePrune]
            match env.worktreePrune wd with
            | .error e => (⟨base, some ("prune worktrees: " ++ e), oldRef, ""⟩, tr)
            | .ok _ =>
              let tr := tr ++ [Step.revParseNew]
              match env.revParseHead2 wd with
              | .error e => (⟨base, some ("get new ref: " ++ e), oldRef, ""⟩, tr)
              | .ok out3 => (⟨base, none, oldRef, trimSpace out3⟩, tr)

/-- Function `syncRepo` instrumented with the trace of external operations: resolve
the working directory (prefer `<dir>/default` when it holds a `.git`, else
`<dir>` itself, else fail with "no git dir found"), then run the step
chain.  Mirrors cmd_sync.go lines 110–126. -/
def syncRepoT (env : Env) (dir : String) : syncResult × List Step :=
  let base := baseName dir
  if env.stat (joinPath (joinPath dir "default") ".git") then
    syncSteps env base (joinPath dir "default") [Step.statDefault]
  else if env.stat (joinPath dir ".git") then
    syncSteps env base dir [Step.statDefault, Step.statSelf]
  else
    (⟨base, some "no git dir found", "", ""⟩, [Step.statDefault, Step.statSelf])

/-- Function `syncRepo` from cmd_sync.go: the outcome alone. -/
def syncRepo (env : Env) (dir : String) : syncResult :=
  (syncRepoT env dir).1

/-- The working directory `syncRepo` resolves for a target (meaningful when
at least one of the two `.git` probes succeeds). -/
def resolveWd (env : Env) (dir : String) : String :=
  if env.stat (joinPath (joinPath dir "default") ".git") then
    joinPath dir "default"
  else dir

/-!
The worker pool of `syncCmd.run`.  Function `run` pre-loads a buffered channel with every subdirectory, starts
`parallel` workers, each of which repeatedly claims the next queued target
and sends `syncRepo dir` on the result channel, and closes the result
channel once every worker has exited.  The state below abstracts a moment
of that execution: `queue` is what remains in the `dirs` channel,
`inFlight` the targets claimed by a worker but not yet reported (at most
`parallel` many, since each worker holds at most one), and `done` the
outcomes received so far, in arrival order. -/
structure PState where
  queue : List String
  inFlight : Multiset String
  done : List syncResult

/-- One scheduler step of the pool with outcome function `f` and
`parallel = c`: a worker with no target in hand claims the head of the
queue (possible only while fewer than `c` targets are in flight), or a
worker finishes its target and its outcome arrives. -/
inductive PoolStep (f : String → syncResult) (c : Int) : PState → PState → Prop
  | claim (t : String) (q : List String) (m : Multiset String)
      (d : List syncResult) (h : (Multiset.card m : Int) < c) :
      PoolStep f c ⟨t :: q, m, d⟩ ⟨q, t ::ₘ m, d⟩
  | finish (t : String) (q : List String) (m : Multiset String)
      (d : List syncResult) (h : t ∈ m) :
      PoolStep f c ⟨q, m, d⟩ ⟨q, m.erase t, d ++ [f t]⟩

/-- Initial pool state: all targets queued, nothing claimed, nothing done. -/
def initState (targets : List String) : PState := ⟨targets, 0, []⟩

/-- Reachability in the pool semantics. -/
def Reaches (f : String → syncResult) (c : Int) (s s' : PState) : Prop :=
  Relation.ReflTransGen (PoolStep f c) s s'

/-- A state from which no scheduler step is possible: the point at which
all workers have exited and the result channel closes. -/
def halted (f : String → syncResult) (c : Int) (s : PState) : Prop :=
  ∀ s', ¬ PoolStep f c s s'

/-- Termination measure for the pool: each step strictly decreases it. -/
def pmeasure (s : PState) : Nat :=
  2 * s.queue.length + Multiset.card s.inFlight

/-!
The reporting loop and top-level result of `syncCmd.run` and `Execute`.
-/

/-- Go format `%4d`: decimal, right-justified in (at least) 4 columns. -/
def fmtInt4 (n : Nat) : String :=
  String.mk (List.replicate (4 - (toString n).length) ' ') ++ toString n

/-- The body of the reporting loop of `run`, with `i` the counter value
before the iteration: increment the counter, then print the outcome's line. -/
def runReportAux (i : Nat) : List syncResult → List String
  | [] => []
  | r :: rs =>
    let msg := fmtInt4 (i + 1) ++ " " ++ r.dir ++ ": "
    let msg := match r.err with
      | some e => msg ++ e
      | none =>
        if r.oldRef = r.newRef then msg ++ r.newRef
        else msg ++ r.oldRef ++ " -> " ++ r.newRef
    msg :: runReportAux (i + 1) rs

/-- The lines `run` writes to stderr for a list of outcomes, in order. -/
def runReport (outs : List syncResult) : List String := runReportAux 0 outs

/-- An `os.DirEntry` as far as `run` consumes it. -/
structure DirEntry where
  name : String
  isDir : Bool

/-- The value `run` returns together with the report it prints: the
`os.ReadDir` error (wrapped) aborts the run, any enumeration success ends
with `nil` after reporting every received outcome.  `outs` is the arrival
order of outcomes; which lists can appear there is what the pool semantics
above describes. -/
def syncRunResult (rd : Except String (List DirEntry))
    (outs : List syncResult) : Except String (List String) :=
  match rd with
  | .error e => .error ("sync: read .: " ++ e)
  | .ok _ => .ok (runReport outs)

/-- Method `syncCmd.Execute` as an exit status: 2 (usage error) on unexpected
arguments, else 1 on a `run` error, else 0. -/
def executeSync (nargs : Nat) (rd : Except String (List DirEntry))
    (outs : List syncResult) : Nat :=
  if 0 < nargs then 2
  else match syncRunResult rd outs with
    | .error _ => 1
    | .ok _ => 0

/-- A concrete environment in which every external operation fails. -/
def failEnv : Env where
  stat := fun _ => false
  revParseHead1 := fun _ => .error "exit status 128"
  revParseOriginHead := fun _ => .error "exit status 128"
  checkout := fun _ _ => .error "exit status 1"
  fetch := fun _ => .error "exit status 1"
  merge := fun _ => .error "exit status 128"
  worktreePrune := fun _ => .error "exit status 1"
  revParseHead2 := fun _ => .error "exit status 128"

/-- A concrete environment in which every external operation succeeds. -/
def goodEnv : Env where
  stat := fun _ => true
  revParseHead1 := fun _ => .ok "abc123"
  revParseOriginHead := fun _ => .ok "origin/main"
  checkout := fun _ _ => .ok ()
  fetch := fun _ => .ok ()
  merge := fun _ => .ok ()
  worktreePrune := fun _ => .ok ()
  revParseHead2 := fun _ => .ok "def456"

/-- What failure text each step leaves in an outcome: the step-identifying
prefix the code prepends (for the resolution step, the fixed text). -/
def errMatches : Step → String → Prop
  | .statDefault, _ => False
  | .statSelf, e => e = "no git dir found"
  | .revParseOld, e => ∃ e0, e = "get old ref: " ++ e0
  | .revParseOriginHead, e => ∃ e0, e = "get remote default branch: " ++ e0
  | .checkout, e => ∃ e0, e = "switch to default branch: " ++ e0
  | .fetch, e => ∃ e0, e = "fetch: " ++ e0
  | .merge, e => ∃ e0, e = "merge: " ++ e0
  | .worktreePrune, e => ∃ e0, e = "prune worktrees: " ++ e0
  | .revParseNew, e => ∃ e0, e = "get new ref: " ++ e0

/-!
Helper lemmas.
-/

/-- Every branch of `syncRepo` names the outcome after the target's final
path segment. -/
lemma syncSteps_dir (env : Env) (base wd : String) (tr : List Step) :
    (syncSteps env base wd tr).1.dir = base := by
  unfold syncSteps
  cases env.revParseHead1 wd <;> simp
  cases env.revParseOriginHead wd <;> simp
  cases env.checkout wd (baseName (trimSpace _)) <;> simp
  cases env.fetch wd <;> simp
  cases env.merge wd <;> simp
  cases env.worktreePrune wd <;> simp
  cases env.revParseHead2 wd <;> simp

lemma syncRepo_dir (env : Env) (dir : String) :
    (syncRepo env dir).dir = baseName dir := by
  unfold syncRepo syncRepoT
  split
  · exact syncSteps_dir ..
  · split
    · exact syncSteps_dir ..
    · rfl

/-- Conservation invariant of the pool: queued, in-flight and finished
work together always account for exactly the initial target list (with
outcomes counted through `f`). -/
lemma pool_inv (f : String → syncResult) (c : Int) (ts : List String)
    (s : PState) (h : Reaches f c (initState ts) s) :
    Multiset.map f ↑s.queue + Multiset.map f s.inFlight + ↑s.done
      = Multiset.map f ↑ts := by
  induction h with
  | refl => simp [initState]
  | tail _ step ih =>
    cases step with
    | claim t q m d hlt =>
      rw [← ih]
      simp only [← Multiset.cons_coe, Multiset.map_cons,
        ← Multiset.singleton_add, Multiset.map_add, Multiset.map_singleton]
      abel
    | finish t q m d hmem =>
      have hm : Multiset.map f m = f t ::ₘ Multiset.map f (m.erase t) := by
        rw [← Multiset.map_cons, Multiset.cons_erase hmem]
      rw [← ih, hm]
      simp only [← Multiset.coe_add, Multiset.map_cons, Multiset.coe_singleton,
        ← Multiset.singleton_add]
      abel

/-- With at least one worker, a halted pool state has drained its queue and
has no claimed target outstanding. -/
lemma halted_shape (f : String → syncResult) (c : Int) (hc : 1 ≤ c)
    (s : PState) (h : halted f c s) : s.queue = [] ∧ s.inFlight = 0 := by
  obtain ⟨q, m, d⟩ := s
  constructor
  · cases q with
    | nil => rfl
    | cons t q' =>
      by_cases hm : m = 0
      · subst hm
        exact absurd (PoolStep.claim (f := f) t q' 0 d (by simpa using hc))
          (h _)
      · obtain ⟨t', ht'⟩ := Multiset.exists_mem_of_ne_zero hm
        exact absurd (PoolStep.finish (f := f) (c := c) t' (t :: q') m d ht')
          (h _)
  · by_contra hm
    obtain ⟨t', ht'⟩ := Multiset.exists_mem_of_ne_zero hm
    exact absurd (PoolStep.finish (f := f) (c := c) t' q m d ht') (h _)

/-- At a halted state of a pool with at least one worker, the multiset of
outcomes is exactly the image of the target list under `f`. -/
lemma pool_done_eq (f : String → syncResult) (c : Int) (hc : 1 ≤ c)
    (ts : List String) (s : PState) (hr : Reaches f c (initState ts) s)
    (hh : halted f c s) : (↑s.done : Multiset syncResult) = Multiset.map f ↑ts := by
  obtain ⟨hq, hm⟩ := halted_shape f c hc s hh
  have := pool_inv f c ts s hr
  rwa [hq, hm] at this

/-- A string with a nonempty text prepended is nonempty. -/
lemma append_ne_empty (p e : String) (hp : p ≠ "") : p ++ e ≠ "" := by
  intro h
  have h2 : p.data ++ e.data = ([] : List Char) := congrArg String.data h
  rcases List.append_eq_nil.mp h2 with ⟨h3, -⟩
  exact hp (String.ext h3)

/-- Case analysis core for the outcome invariant: after the working
directory is resolved, the step chain yields either a success with both
refs populated or a failure with nonempty error text and empty `newRef`
(provided successful rev-parses produce nonempty trimmed output, as git
does). -/
lemma syncSteps_invariant (env : Env) (base wd : String) (tr : List Step)
    (hOld : ∀ s, env.revParseHead1 wd = .ok s → trimSpace s ≠ "")
    (hNew : ∀ s, env.revParseHead2 wd = .ok s → trimSpace s ≠ "") :
    ((syncSteps env base wd tr).1.err = none ∧
      (syncSteps env base wd tr).1.oldRef ≠ "" ∧
      (syncSteps env base wd tr).1.newRef ≠ "") ∨
    (∃ e, (syncSteps env base wd tr).1.err = some e ∧ e ≠ "" ∧
      (syncSteps env base wd tr).1.newRef = "") := by
  unfold syncSteps
  cases h1 : env.revParseHead1 wd with
  | error e => exact Or.inr ⟨"get old ref: " ++ e, by simp, append_ne_empty _ _ (by decide), by simp⟩
  | ok out =>
  simp only []
  cases h2 : env.revParseOriginHead wd with
  | error e => exact Or.inr ⟨"get remote default branch: " ++ e, by simp, append_ne_empty _ _ (by decide), by simp⟩
  | ok out2 =>
  simp only []
  cases h3 : env.checkout wd (baseName (trimSpace out2)) with
  | error e => exact Or.inr ⟨"switch to default branch: " ++ e, by simp, append_ne_empty _ _ (by decide), by simp⟩
  | ok u =>
  simp only []
  cases h4 : env.fetch wd with
  | error e => exact Or.inr ⟨"fetch: " ++ e, by simp, append_ne_empty _ _ (by decide), by simp⟩
  | ok u =>
  simp only []
  cases h5 : env.merge wd with
  | error e => exact Or.inr ⟨"merge: " ++ e, by simp, append_ne_empty _ _ (by decide), by simp⟩
  | ok u =>
  simp only []
  cases h6 : env.worktreePrune wd with
  | error e => exact Or.inr ⟨"prune worktrees: " ++ e, by simp, append_ne_empty _ _ (by decide), by simp⟩
  | ok u =>
  simp only []
  cases h7 : env.revParseHead2 wd with
  | error e => exact Or.inr ⟨"get new ref: " ++ e, by simp, append_ne_empty _ _ (by decide), by simp⟩
  | ok out3 => exact Or.inl ⟨by simp, by simp [hOld out h1], by simp [hNew out3 h7]⟩

/-!
Claim theorems.
-/

/-- Claim C2: every outcome produced by `syncRepo` satisfies exactly one of:
success (`err = none`) with both `oldRef` and `newRef` populated, or
failure (`err = some`) with nonempty error text — and `newRef` is empty on
every failed outcome.  The hypotheses record the contract of the external
tool: a `git rev-parse --short HEAD` that exits successfully prints a
nonempty revision. -/
theorem sync_outcome_invariant (env : Env) (dir : String)
    (hOld : ∀ wd s, env.revParseHead1 wd = .ok s → trimSpace s ≠ "")
    (hNew : ∀ wd s, env.revParseHead2 wd = .ok s → trimSpace s ≠ "") :
    Xor' ((syncRepo env dir).err = none ∧ (syncRepo env dir).oldRef ≠ "" ∧
        (syncRepo env dir).newRef ≠ "")
      ((∃ e, (syncRepo env dir).err = some e ∧ e ≠ "") ∧
        (syncRepo env dir).newRef = "") := by
  have key : ((syncRepo env dir).err = none ∧ (syncRepo env dir).oldRef ≠ "" ∧
      (syncRepo env dir).newRef ≠ "") ∨
      (∃ e, (syncRepo env dir).err = some e ∧ e ≠ "" ∧
        (syncRepo env dir).newRef = "") := by
    unfold syncRepo syncRepoT
    split
    · exact syncSteps_invariant env _ _ _ (fun s => hOld _ s) (fun s => hNew _ s)
    · split
      · exact syncSteps_invariant env _ _ _ (fun s => hOld _ s) (fun s => hNew _ s)
      · exact Or.inr ⟨"no git dir found", rfl, by decide, rfl⟩
  rcases key with h | ⟨e, he, hne, hnew⟩
  · refine Or.inl ⟨h, ?_⟩
    rintro ⟨⟨e, he, -⟩, -⟩
    rw [h.1] at he
    cases he
  · refine Or.inr ⟨⟨⟨e, he, hne⟩, hnew⟩, ?_⟩
    rintro ⟨hn, -⟩
    rw [hn] at he
    cases he

/-- Witness for C2 at a concrete all-successful environment. -/
theorem sync_outcome_invariant_witness :
    Xor' ((syncRepo goodEnv "./a").err = none ∧
        (syncRepo goodEnv "./a").oldRef ≠ "" ∧
        (syncRepo goodEnv "./a").newRef ≠ "")
      ((∃ e, (syncRepo goodEnv "./a").err = some e ∧ e ≠ "") ∧
        (syncRepo goodEnv "./a").newRef = "") :=
  sync_outcome_invariant goodEnv "./a"
    (fun wd s h => by cases h; decide)
    (fun wd s h => by cases h; decide)

/-!
Per-case evaluation lemmas for the step chain: one for each early return
of `syncRepo`, and one for the all-success path.
-/

lemma syncSteps_err1 (env : Env) (base wd : String) (tr : List Step) (e : String)
    (h1 : env.revParseHead1 wd = .error e) :
    syncSteps env base wd tr =
      (⟨base, some ("get old ref: " ++ e), "", ""⟩, tr ++ [Step.revParseOld]) := by
  simp only [syncSteps, h1]

lemma syncSteps_err2 (env : Env) (base wd : String) (tr : List Step) (out e : String)
    (h1 : env.revParseHead1 wd = .ok out)
    (h2 : env.revParseOriginHead wd = .error e) :
    syncSteps env base wd tr =
      (⟨base, some ("get remote default branch: " ++ e), trimSpace out, ""⟩,
        tr ++ [Step.revParseOld, Step.revParseOriginHead]) := by
  simp only [syncSteps, h1, h2]
  simp

lemma syncSteps_err3 (env : Env) (base wd : String) (tr : List Step) (out out2 e : String)
    (h1 : env.revParseHead1 wd = .ok out)
    (h2 : env.revParseOriginHead wd = .ok out2)
    (h3 : env.checkout wd (baseName (trimSpace out2)) = .error e) :
    syncSteps env base wd tr =
      (⟨base, some ("switch to default branch: " ++ e), trimSpace out, ""⟩,
        tr ++ [Step.revParseOld, Step.revParseOriginHead, Step.checkout]) := by
  simp only [syncSteps, h1, h2, h3]
  simp

lemma syncSteps_err4 (env : Env) (base wd : String) (tr : List Step) (out out2 e : String)
    (h1 : env.revParseHead1 wd = .ok out)
    (h2 : env.revParseOriginHead wd = .ok out2)
    (h3 : env.checkout wd (baseName (trimSpace out2)) = .ok ())
    (h4 : env.fetch wd = .error e) :
    syncSteps env base wd tr =
      (⟨base, some ("fetch: " ++ e), trimSpace out, ""⟩,
        tr ++ [Step.revParseOld, Step.revParseOriginHead, Step.checkout,
          Step.fetch]) := by
  simp only [syncSteps, h1, h2, h3, h4]
  simp

lemma syncSteps_err5 (env : Env) (base wd : String) (tr : List Step) (out out2 e : String)
    (h1 : env.revParseHead1 wd = .ok out)
    (h2 : env.revParseOriginHead wd = .ok out2)
    (h3 : env.checkout wd (baseName (trimSpace out2)) = .ok ())
    (h4 : env.fetch wd = .ok ())
    (h5 : env.merge wd = .error e) :
    syncSteps env base wd tr =
      (⟨base, some ("merge: " ++ e), trimSpace out, ""⟩,
        tr ++ [Step.revParseOld, Step.revParseOriginHead, Step.checkout,
          Step.fetch, Step.merge]) := by
  simp only [syncSteps, h1, h2, h3, h4, h5]
  simp

lemma syncSteps_err6 (env : Env) (base wd : String) (tr : List Step) (out out2 e : String)
    (h1 : env.revParseHead1 wd = .ok out)
    (h2 : env.revParseOriginHead wd = .ok out2)
    (h3 : env.checkout wd (baseName (trimSpace out2)) = .ok ())
    (h4 : env.fetch wd = .ok ())
    (h5 : env.merge wd = .ok ())
    (h6 : env.worktreePrune wd = .error e) :
    syncSteps env base wd tr =
      (⟨base, some ("prune worktrees: " ++ e), trimSpace out, ""⟩,
        tr ++ [Step.revParseOld, Step.revParseOriginHead, Step.checkout,
          Step.fetch, Step.merge, Step.worktreePrune]) := by
  simp only [syncSteps, h1, h2, h3, h4, h5, h6]
  simp

lemma syncSteps_err7 (env : Env) (base wd : String) (tr : List Step) (out out2 e : String)
    (h1 : env.revParseHead1 wd = .ok out)
    (h2 : env.revParseOriginHead wd = .ok out2)
    (h3 : env.checkout wd (baseName (trimSpace out2)) = .ok ())
    (h4 : env.fetch wd = .ok ())
    (h5 : env.merge wd = .ok ())
    (h6 : env.worktreePrune wd = .ok ())
    (h7 : env.revParseHead2 wd = .error e) :
    syncSteps env base wd tr =
      (⟨base, some ("get new ref: " ++ e), trimSpace out, ""⟩,
        tr ++ [Step.revParseOld, Step.revParseOriginHead, Step.checkout,
          Step.fetch, Step.merge, Step.worktreePrune, Step.revParseNew]) := by
  simp only [syncSteps, h1, h2, h3, h4, h5, h6, h7]
  simp

lemma syncSteps_success (env : Env) (base wd : String) (tr : List Step) (out out2 out3 : String)
    (h1 : env.revParseHead1 wd = .ok out)
    (h2 : env.revParseOriginHead wd = .ok out2)
    (h3 : env.checkout wd (baseName (trimSpace out2)) = .ok ())
    (h4 : env.fetch wd = .ok ())
    (h5 : env.merge wd = .ok ())
    (h6 : env.worktreePrune wd = .ok ())
    (h7 : env.revParseHead2 wd = .ok out3) :
    syncSteps env base wd tr =
      (⟨base, none, trimSpace out, trimSpace out3⟩,
        tr ++ [Step.revParseOld, Step.revParseOriginHead, Step.checkout,
          Step.fetch, Step.merge, Step.worktreePrune, Step.revParseNew]) := by
  simp only [syncSteps, h1, h2, h3, h4, h5, h6, h7]
  simp

/-- Exhaustive case split on how the external operations at a fixed working
directory can unfold for the step chain. -/
lemma envCases (env : Env) (wd : String) :
    (∃ e, env.revParseHead1 wd = .error e) ∨
    (∃ out e, env.revParseHead1 wd = .ok out ∧
      env.revParseOriginHead wd = .error e) ∨
    (∃ out out2 e, env.revParseHead1 wd = .ok out ∧
      env.revParseOriginHead wd = .ok out2 ∧
      env.checkout wd (baseName (trimSpace out2)) = .error e) ∨
    (∃ out out2 e, env.revParseHead1 wd = .ok out ∧
      env.revParseOriginHead wd = .ok out2 ∧
      env.checkout wd (baseName (trimSpace out2)) = .ok () ∧
      env.fetch wd = .error e) ∨
    (∃ out out2 e, env.revParseHead1 wd = .ok out ∧
      env.revParseOriginHead wd = .ok out2 ∧
      env.checkout wd (baseName (trimSpace out2)) = .ok () ∧
      env.fetch wd = .ok () ∧ env.merge wd = .error e) ∨
    (∃ out out2 e, env.revParseHead1 wd = .ok out ∧
      env.revParseOriginHead wd = .ok out2 ∧
      env.checkout wd (baseName (trimSpace out2)) = .ok () ∧
      env.fetch wd = .ok () ∧ env.merge wd = .ok () ∧
      env.worktreePrune wd = .error e) ∨
    (∃ out out2 e, env.revParseHead1 wd = .ok out ∧
      env.revParseOriginHead wd = .ok out2 ∧
      env.checkout wd (baseName (trimSpace out2)) = .ok () ∧
      env.fetch wd = .ok () ∧ env.merge wd = .ok () ∧
      env.worktreePrune wd = .ok () ∧
      env.revParseHead2 wd = .error e) ∨
    (∃ out out2 out3, env.revParseHead1 wd = .ok out ∧
      env.revParseOriginHead wd = .ok out2 ∧
      env.checkout wd (baseName (trimSpace out2)) = .ok () ∧
      env.fetch wd = .ok () ∧ env.merge wd = .ok () ∧
      env.worktreePrune wd = .ok () ∧
      env.revParseHead2 wd = .ok out3) := by
  cases h1 : env.revParseHead1 wd with
  | error e => exact Or.inl ⟨e, rfl⟩
  | ok out =>
  cases h2 : env.revParseOriginHead wd with
  | error e => exact Or.inr (Or.inl ⟨out, e, rfl, rfl⟩)
  | ok out2 =>
  cases h3 : env.checkout wd (baseName (trimSpace out2)) with
  | error e => exact Or.inr (Or.inr (Or.inl ⟨out, out2, e, rfl, rfl, h3⟩))
  | ok u =>
  cases u
  cases h4 : env.fetch wd with
  | error e => exact Or.inr (Or.inr (Or.inr (Or.inl ⟨out, out2, e, rfl, rfl, h3, rfl⟩)))
  | ok u =>
  cases u
  cases h5 : env.merge wd with
  | error e =>
    exact Or.inr (Or.inr (Or.inr (Or.inr (Or.inl
      ⟨out, out2, e, rfl, rfl, h3, rfl, rfl⟩))))
  | ok u =>
  cases u
  cases h6 : env.worktreePrune wd with
  | error e =>
    exact Or.inr (Or.inr (Or.inr (Or.inr (Or.inr (Or.inl
      ⟨out, out2, e, rfl, rfl, h3, rfl, rfl, rfl⟩)))))
  | ok u =>
  cases u
  cases h7 : env.revParseHead2 wd with
  | error e =>
    exact Or.inr (Or.inr (Or.inr (Or.inr (Or.inr (Or.inr (Or.inl
      ⟨out, out2, e, rfl, rfl, h3, rfl, rfl, rfl, rfl⟩))))))
  | ok out3 =>
    exact Or.inr (Or.inr (Or.inr (Or.inr (Or.inr (Or.inr (Or.inr
      ⟨out, out2, out3, rfl, rfl, h3, rfl, rfl, rfl, rfl⟩))))))

/-- Short-circuiting of the step chain: the trace never repeats an
operation, and on failure the failing operation is the last one performed,
carries its step's error text, and no operation of a later step appears in
the trace. -/
lemma syncSteps_shortCircuit (env : Env) (base wd : String) (tr0 : List Step)
    (h0 : tr0 = [Step.statDefault] ∨ tr0 = [Step.statDefault, Step.statSelf]) :
    (syncSteps env base wd tr0).2.Nodup ∧
    ∀ e, (syncSteps env base wd tr0).1.err = some e →
      ∃ last, (syncSteps env base wd tr0).2.getLast? = some last ∧
        errMatches last e ∧
        ∀ s ∈ (syncSteps env base wd tr0).2, stepIdx s ≤ stepIdx last := by
  rcases envCases env wd with ⟨e, h1⟩ | ⟨out, e, h1, h2⟩ |
    ⟨out, out2, e, h1, h2, h3⟩ | ⟨out, out2, e, h1, h2, h3, h4⟩ |
    ⟨out, out2, e, h1, h2, h3, h4, h5⟩ |
    ⟨out, out2, e, h1, h2, h3, h4, h5, h6⟩ |
    ⟨out, out2, e, h1, h2, h3, h4, h5, h6, h7⟩ |
    ⟨out, out2, out3, h1, h2, h3, h4, h5, h6, h7⟩
  · rw [syncSteps_err1 env base wd tr0 e h1]
    rcases h0 with rfl | rfl <;>
      exact ⟨by simp only []; decide, fun e' he' => by
        simp only [Option.some.injEq] at he'
        subst he'
        exact ⟨Step.revParseOld, by simp only []; decide, ⟨e, rfl⟩, by simp only []; decide⟩⟩
  · rw [syncSteps_err2 env base wd tr0 out e h1 h2]
    rcases h0 with rfl | rfl <;>
      exact ⟨by simp only []; decide, fun e' he' => by
        simp only [Option.some.injEq] at he'
        subst he'
        exact ⟨Step.revParseOriginHead, by simp only []; decide, ⟨e, rfl⟩, by simp only []; decide⟩⟩
  · rw [syncSteps_err3 env base wd tr0 out out2 e h1 h2 h3]
    rcases h0 with rfl | rfl <;>
      exact ⟨by simp only []; decide, fun e' he' => by
        simp only [Option.some.injEq] at he'
        subst he'
        exact ⟨Step.checkout, by simp only []; decide, ⟨e, rfl⟩, by simp only []; decide⟩⟩
  · rw [syncSteps_err4 env base wd tr0 out out2 e h1 h2 h3 h4]
    rcases h0 with rfl | rfl <;>
      exact ⟨by simp only []; decide, fun e' he' => by
        simp only [Option.some.injEq] at he'
        subst he'
        exact ⟨Step.fetch, by simp only []; decide, ⟨e, rfl⟩, by simp only []; decide⟩⟩
  · rw [syncSteps_err5 env base wd tr0 out out2 e h1 h2 h3 h4 h5]
    rcases h0 with rfl | rfl <;>
      exact ⟨by simp only []; decide, fun e' he' => by
        simp only [Option.some.injEq] at he'
        subst he'
        exact ⟨Step.merge, by simp only []; decide, ⟨e, rfl⟩, by simp only []; decide⟩⟩
  · rw [syncSteps_err6 env base wd tr0 out out2 e h1 h2 h3 h4 h5 h6]
    rcases h0 with rfl | rfl <;>
      exact ⟨by simp only []; decide, fun e' he' => by
        simp only [Option.some.injEq] at he'
        subst he'
        exact ⟨Step.worktreePrune, by simp only []; decide, ⟨e, rfl⟩, by simp only []; decide⟩⟩
  · rw [syncSteps_err7 env base wd tr0 out out2 e h1 h2 h3 h4 h5 h6 h7]
    rcases h0 with rfl | rfl <;>
      exact ⟨by simp only []; decide, fun e' he' => by
        simp only [Option.some.injEq] at he'
        subst he'
        exact ⟨Step.revParseNew, by simp only []; decide, ⟨e, rfl⟩, by simp only []; decide⟩⟩
  · rw [syncSteps_success env base wd tr0 out out2 out3 h1 h2 h3 h4 h5 h6 h7]
    rcases h0 with rfl | rfl <;>
      exact ⟨by simp only []; decide, fun e' he' => by simp at he'⟩

/-- Claim C4: for every target, the trace of external operations never repeats a
step (no retries), and whenever the outcome is `Failed` the failing
operation is the last one performed, the outcome carries that step's error
text, and no operation belonging to a later step of the per-target
algorithm was executed. -/
theorem step_failure_short_circuits (env : Env) (dir : String) :
    (syncRepoT env dir).2.Nodup ∧
    ∀ e, (syncRepoT env dir).1.err = some e →
      ∃ last, (syncRepoT env dir).2.getLast? = some last ∧
        errMatches last e ∧
        ∀ s ∈ (syncRepoT env dir).2, stepIdx s ≤ stepIdx last := by
  simp only [syncRepoT]
  by_cases hs1 : env.stat (joinPath (joinPath dir "default") ".git") = true
  · simp only [hs1, if_true]
    exact syncSteps_shortCircuit env _ _ _ (Or.inl rfl)
  · rw [Bool.not_eq_true] at hs1
    simp only [hs1, Bool.false_eq_true, if_false]
    by_cases hs2 : env.stat (joinPath dir ".git") = true
    · simp only [hs2, if_true]
      exact syncSteps_shortCircuit env _ _ _ (Or.inr rfl)
    · rw [Bool.not_eq_true] at hs2
      simp only [hs2, Bool.false_eq_true, if_false]
      refine ⟨by decide, fun e' he' => ?_⟩
      simp only [Option.some.injEq] at he'
      subst he'
      exact ⟨Step.statSelf, by decide, rfl, by decide⟩

/-- Witness for C4 at a concrete failing environment. -/
theorem step_failure_short_circuits_witness :
    (syncRepoT failEnv "./a").2.Nodup ∧
    ∃ last, (syncRepoT failEnv "./a").2.getLast? = some last ∧
      errMatches last "no git dir found" ∧
      ∀ s ∈ (syncRepoT failEnv "./a").2, stepIdx s ≤ stepIdx last :=
  ⟨(step_failure_short_circuits failEnv "./a").1,
   (step_failure_short_circuits failEnv "./a").2 "no git dir found" (by decide)⟩

/-- Worktree-cleanup behavior of the step chain: the new HEAD is only read
after the cleanup, a successful merge is always followed by the cleanup
attempt, and a failing cleanup becomes the target's failure (with the new
HEAD never read). -/
lemma syncSteps_prune (env : Env) (base wd : String) (tr0 : List Step)
    (h0 : tr0 = [Step.statDefault] ∨ tr0 = [Step.statDefault, Step.statSelf]) :
    (Step.revParseNew ∈ (syncSteps env base wd tr0).2 →
      List.Sublist [Step.worktreePrune, Step.revParseNew]
        (syncSteps env base wd tr0).2) ∧
    (Step.merge ∈ (syncSteps env base wd tr0).2 → env.merge wd = .ok () →
      Step.worktreePrune ∈ (syncSteps env base wd tr0).2) ∧
    (∀ e, Step.worktreePrune ∈ (syncSteps env base wd tr0).2 →
      env.worktreePrune wd = .error e →
      (syncSteps env base wd tr0).1.err = some ("prune worktrees: " ++ e) ∧
      Step.revParseNew ∉ (syncSteps env base wd tr0).2) := by
  rcases envCases env wd with ⟨e, h1⟩ | ⟨out, e, h1, h2⟩ |
    ⟨out, out2, e, h1, h2, h3⟩ | ⟨out, out2, e, h1, h2, h3, h4⟩ |
    ⟨out, out2, e, h1, h2, h3, h4, h5⟩ |
    ⟨out, out2, e, h1, h2, h3, h4, h5, h6⟩ |
    ⟨out, out2, e, h1, h2, h3, h4, h5, h6, h7⟩ |
    ⟨out, out2, out3, h1, h2, h3, h4, h5, h6, h7⟩
  · rw [syncSteps_err1 env base wd tr0 e h1]
    rcases h0 with rfl | rfl <;>
      exact ⟨fun h => absurd h (by simp only []; decide), fun hm => absurd hm (by simp only []; decide),
        fun e' hp _ => absurd hp (by simp only []; decide)⟩
  · rw [syncSteps_err2 env base wd tr0 out e h1 h2]
    rcases h0 with rfl | rfl <;>
      exact ⟨fun h => absurd h (by simp only []; decide), fun hm => absurd hm (by simp only []; decide),
        fun e' hp _ => absurd hp (by simp only []; decide)⟩
  · rw [syncSteps_err3 env base wd tr0 out out2 e h1 h2 h3]
    rcases h0 with rfl | rfl <;>
      exact ⟨fun h => absurd h (by simp only []; decide), fun hm => absurd hm (by simp only []; decide),
        fun e' hp _ => absurd hp (by simp only []; decide)⟩
  · rw [syncSteps_err4 env base wd tr0 out out2 e h1 h2 h3 h4]
    rcases h0 with rfl | rfl <;>
      exact ⟨fun h => absurd h (by simp only []; decide), fun hm => absurd hm (by simp only []; decide),
        fun e' hp _ => absurd hp (by simp only []; decide)⟩
  · rw [syncSteps_err5 env base wd tr0 out out2 e h1 h2 h3 h4 h5]
    rcases h0 with rfl | rfl <;>
      exact ⟨fun h => absurd h (by simp only []; decide),
        fun _ hok => by simp [h5] at hok,
        fun e' hp _ => absurd hp (by simp only []; decide)⟩
  · rw [syncSteps_err6 env base wd tr0 out out2 e h1 h2 h3 h4 h5 h6]
    rcases h0 with rfl | rfl <;>
      exact ⟨fun h => absurd h (by simp only []; decide), fun _ _ => by simp only []; decide,
        fun e' hp he' => by
          rw [h6] at he'
          simp only [Except.error.injEq] at he'
          subst he'
          exact ⟨rfl, by simp only []; decide⟩⟩
  · rw [syncSteps_err7 env base wd tr0 out out2 e h1 h2 h3 h4 h5 h6 h7]
    rcases h0 with rfl | rfl <;>
      exact ⟨fun _ => by simp only []; decide, fun _ _ => by simp only []; decide,
        fun e' hp he' => by rw [h6] at he'; simp at he'⟩
  · rw [syncSteps_success env base wd tr0 out out2 out3 h1 h2 h3 h4 h5 h6 h7]
    rcases h0 with rfl | rfl <;>
      exact ⟨fun _ => by simp only []; decide, fun _ _ => by simp only []; decide,
        fun e' hp he' => by rw [h6] at he'; simp at he'⟩

/-- Claim C3: for every target, the new HEAD is read only after the
worktree-metadata cleanup (the trace `[prune, read-new-HEAD]` embeds in
order into the executed trace), a successful merge is always followed by
the cleanup attempt, and a cleanup failure yields a `Failed` outcome
carrying the cleanup error — the new HEAD is then never read. -/
theorem worktree_prune_before_new_head (env : Env) (dir : String) :
    (Step.revParseNew ∈ (syncRepoT env dir).2 →
      List.Sublist [Step.worktreePrune, Step.revParseNew]
        (syncRepoT env dir).2) ∧
    (Step.merge ∈ (syncRepoT env dir).2 →
      env.merge (resolveWd env dir) = .ok () →
      Step.worktreePrune ∈ (syncRepoT env dir).2) ∧
    (∀ e, Step.worktreePrune ∈ (syncRepoT env dir).2 →
      env.worktreePrune (resolveWd env dir) = .error e →
      (syncRepoT env dir).1.err = some ("prune worktrees: " ++ e) ∧
      Step.revParseNew ∉ (syncRepoT env dir).2) := by
  simp only [syncRepoT]
  by_cases hs1 : env.stat (joinPath (joinPath dir "default") ".git") = true
  · have hwd : resolveWd env dir = joinPath dir "default" := by
      simp [resolveWd, hs1]
    rw [hwd]
    simp only [hs1, if_true]
    exact syncSteps_prune env _ _ _ (Or.inl rfl)
  · rw [Bool.not_eq_true] at hs1
    have hwd : resolveWd env dir = dir := by simp [resolveWd, hs1]
    rw [hwd]
    simp only [hs1, Bool.false_eq_true, if_false]
    by_cases hs2 : env.stat (joinPath dir ".git") = true
    · simp only [hs2, if_true]
      exact syncSteps_prune env _ _ _ (Or.inr rfl)
    · rw [Bool.not_eq_true] at hs2
      simp only [hs2, Bool.false_eq_true, if_false]
      exact ⟨fun h => absurd h (by decide), fun hm => absurd hm (by decide),
        fun e' hp _ => absurd hp (by decide)⟩

/-- Witness for C3 at a concrete all-successful environment. -/
theorem worktree_prune_before_new_head_witness :
    List.Sublist [Step.worktreePrune, Step.revParseNew]
      (syncRepoT goodEnv "./a").2 ∧
    Step.worktreePrune ∈ (syncRepoT goodEnv "./a").2 :=
  ⟨(worktree_prune_before_new_head goodEnv "./a").1 (by decide),
   (worktree_prune_before_new_head goodEnv "./a").2.1 (by decide) rfl⟩

/-- A concrete single-target execution: claim the target, then finish it. -/
lemma reaches_one (f : String → syncResult) (c : Int) (hc : 1 ≤ c)
    (t : String) : Reaches f c (initState [t]) ⟨[], 0, [f t]⟩ := by
  have s1 : PoolStep f c ⟨[t], 0, []⟩ ⟨[], t ::ₘ 0, []⟩ :=
    PoolStep.claim t [] 0 [] (by simpa using hc)
  have s2 : PoolStep f c ⟨[], t ::ₘ 0, []⟩
      ⟨[], (t ::ₘ 0).erase t, [] ++ [f t]⟩ :=
    PoolStep.finish t [] (t ::ₘ 0) [] (by simp)
  have he : (⟨[], (t ::ₘ 0).erase t, [] ++ [f t]⟩ : PState)
      = ⟨[], 0, [f t]⟩ := by simp
  rw [he] at s2
  exact Relation.ReflTransGen.head s1 (Relation.ReflTransGen.single s2)

/-- A pool state with empty queue and nothing in flight is halted. -/
lemma halted_nil (f : String → syncResult) (c : Int) (d : List syncResult) :
    halted f c ⟨[], 0, d⟩ := by
  intro s' h
  cases h with
  | finish t q m d' hm => exact absurd hm (Multiset.not_mem_zero t)

/-- Claim C1: with any number of workers at least 1, a completed run of the sync
pipeline has produced exactly one outcome per input target, and the
multiset of outcome names equals the multiset of the targets' final path
segments — independently of the concurrency value. -/
theorem sync_all_outcome_multiset (env : Env) (c : Int) (targets : List String)
    (s : PState) (hc : 1 ≤ c)
    (hr : Reaches (syncRepo env) c (initState targets) s)
    (hh : halted (syncRepo env) c s) :
    s.done.length = targets.length ∧
    Multiset.map syncResult.dir ↑s.done = Multiset.map baseName ↑targets := by
  have hd := pool_done_eq (syncRepo env) c hc targets s hr hh
  constructor
  · have hcard := congrArg Multiset.card hd
    simpa using hcard
  · rw [hd, Multiset.map_map]
    exact Multiset.map_congr rfl (fun x _ => syncRepo_dir env x)

/-- Witness for C1: a one-target run with one worker. -/
theorem sync_all_outcome_multiset_witness :
    ([syncRepo failEnv "./a"] : List syncResult).length
      = (["./a"] : List String).length ∧
    Multiset.map syncResult.dir ↑([syncRepo failEnv "./a"])
      = Multiset.map baseName ↑(["./a"]) :=
  sync_all_outcome_multiset failEnv 1 ["./a"]
    ⟨[], 0, [syncRepo failEnv "./a"]⟩ (by norm_num)
    (reaches_one (syncRepo failEnv) 1 (by norm_num) "./a")
    (halted_nil (syncRepo failEnv) 1 [syncRepo failEnv "./a"])

/-- Claim C6: for a fixed target list and deterministic per-step behavior, two
completed runs that differ only in their concurrency value (both at least
1) produce the same multiset of outcomes. -/
theorem concurrency_independent_outcomes (env : Env) (targets : List String)
    (c₁ c₂ : Int) (s₁ s₂ : PState) (h1 : 1 ≤ c₁) (h2 : 1 ≤ c₂)
    (hr₁ : Reaches (syncRepo env) c₁ (initState targets) s₁)
    (hh₁ : halted (syncRepo env) c₁ s₁)
    (hr₂ : Reaches (syncRepo env) c₂ (initState targets) s₂)
    (hh₂ : halted (syncRepo env) c₂ s₂) :
    (↑s₁.done : Multiset syncResult) = ↑s₂.done := by
  rw [pool_done_eq (syncRepo env) c₁ h1 targets s₁ hr₁ hh₁,
    pool_done_eq (syncRepo env) c₂ h2 targets s₂ hr₂ hh₂]

/-- Witness for C6: the same one-target run with 1 and with 2 workers. -/
theorem concurrency_independent_outcomes_witness :
    (↑([syncRepo failEnv "./a"]) : Multiset syncResult)
      = ↑([syncRepo failEnv "./a"]) :=
  concurrency_independent_outcomes failEnv ["./a"] 1 2
    ⟨[], 0, [syncRepo failEnv "./a"]⟩ ⟨[], 0, [syncRepo failEnv "./a"]⟩
    (by norm_num) (by norm_num)
    (reaches_one (syncRepo failEnv) 1 (by norm_num) "./a")
    (halted_nil (syncRepo failEnv) 1 [syncRepo failEnv "./a"])
    (reaches_one (syncRepo failEnv) 2 (by norm_num) "./a")
    (halted_nil (syncRepo failEnv) 2 [syncRepo failEnv "./a"])

/-- Claim C9: the pipeline terminates.  Every scheduler step strictly decreases a
finite measure (so no execution runs forever); with at least one worker the
result stream closes exactly when the pre-loaded queue is drained and no
claimed target is outstanding; and an empty target list is complete
immediately, with an empty result sequence. -/
theorem pipeline_termination (env : Env) (c : Int) :
    (∀ s s', PoolStep (syncRepo env) c s s' → pmeasure s' < pmeasure s) ∧
    (1 ≤ c → ∀ s : PState,
      halted (syncRepo env) c s ↔ s.queue = [] ∧ s.inFlight = 0) ∧
    (halted (syncRepo env) c (initState []) ∧
      (initState ([] : List String)).done = []) := by
  refine ⟨?_, ?_, halted_nil (syncRepo env) c [], rfl⟩
  · intro s s' h
    cases h with
    | claim t q m d hlt =>
      simp only [pmeasure, List.length_cons, Multiset.card_cons]
      omega
    | finish t q m d hm =>
      have hpos : 0 < Multiset.card m :=
        Multiset.card_pos_iff_exists_mem.mpr ⟨t, hm⟩
      simp only [pmeasure, Multiset.card_erase_of_mem hm, Nat.pred_eq_sub_one]
      omega
  · intro hc s
    constructor
    · exact halted_shape (syncRepo env) c hc s
    · rintro ⟨hq, hm⟩
      obtain ⟨q, m, d⟩ := s
      simp only at hq hm
      subst hq
      subst hm
      exact halted_nil (syncRepo env) c d

/-- Witness for C9: a concrete decreasing step, the halted-state
characterization at the drained state, and immediate completion on no
targets. -/
theorem pipeline_termination_witness :
    pmeasure ⟨[], "./a" ::ₘ 0, []⟩ < pmeasure ⟨["./a"], 0, []⟩ ∧
    (halted (syncRepo failEnv) 1 ⟨[], 0, []⟩ ↔
      ([] : List String) = [] ∧ (0 : Multiset String) = 0) ∧
    halted (syncRepo failEnv) 1 (initState []) :=
  ⟨(pipeline_termination failEnv 1).1 ⟨["./a"], 0, []⟩ ⟨[], "./a" ::ₘ 0, []⟩
      (PoolStep.claim "./a" [] 0 [] (by simp)),
    (pipeline_termination failEnv 1).2.1 (by norm_num) ⟨[], 0, []⟩,
    (pipeline_termination failEnv 1).2.2.1⟩

/-- Claim C10: with a zero or negative `-parallel` value no worker ever starts:
no scheduler step is possible, the only reachable state is the initial one,
no outcome is emitted, and the command still exits successfully. -/
theorem nonpositive_parallel_no_work (env : Env) (par : Int)
    (targets : List String) (des : List DirEntry) (hpar : par ≤ 0) :
    (∀ s, Reaches (syncRepo env) par (initState targets) s →
      s = initState targets) ∧
    halted (syncRepo env) par (initState targets) ∧
    (initState targets).done = [] ∧
    executeSync 0 (.ok des) (initState targets).done = 0 := by
  have hh : halted (syncRepo env) par (initState targets) := by
    intro s' h
    cases h with
    | claim t q m d hlt =>
      simp only [Multiset.card_zero, Nat.cast_zero] at hlt
      omega
    | finish t q m d hm => exact absurd hm (Multiset.not_mem_zero t)
  refine ⟨?_, hh, rfl, rfl⟩
  intro s hr
  induction hr with
  | refl => rfl
  | tail h' step ih => exact absurd (ih ▸ step) (hh _)

/-- Witness for C10 at `-parallel=0` with one target. -/
theorem nonpositive_parallel_no_work_witness :
    (∀ s, Reaches (syncRepo failEnv) 0 (initState ["./a"]) s →
      s = initState ["./a"]) ∧
    halted (syncRepo failEnv) 0 (initState ["./a"]) ∧
    (initState ["./a"]).done = [] ∧
    executeSync 0 (.ok []) (initState ["./a"]).done = 0 :=
  nonpositive_parallel_no_work failEnv 0 ["./a"] [] (by norm_num)

/-- Claim C7: a target with no version-control metadata in `<target>/default` nor
in `<target>` itself contributes, in every completed run with at least one
worker, a `Failed` outcome with the "no git dir found" error, after only
the two metadata probes (no git subcommand runs); and the working-directory
resolution prefers `<target>/default` when its probe succeeds, falling back
to `<target>` otherwise. -/
theorem no_checkout_failure (env : Env) (c : Int) (targets : List String)
    (dir : String) (s : PState) (hc : 1 ≤ c) (hmem : dir ∈ targets)
    (hs1 : env.stat (joinPath (joinPath dir "default") ".git") = false)
    (hs2 : env.stat (joinPath dir ".git") = false)
    (hr : Reaches (syncRepo env) c (initState targets) s)
    (hh : halted (syncRepo env) c s) :
    (⟨baseName dir, some "no git dir found", "", ""⟩ : syncResult) ∈ s.done ∧
    (syncRepoT env dir).2 = [Step.statDefault, Step.statSelf] ∧
    (∀ d', env.stat (joinPath (joinPath d' "default") ".git") = true →
      resolveWd env d' = joinPath d' "default") ∧
    (∀ d', env.stat (joinPath (joinPath d' "default") ".git") = false →
      resolveWd env d' = d') := by
  have heq : syncRepoT env dir =
      (⟨baseName dir, some "no git dir found", "", ""⟩,
        [Step.statDefault, Step.statSelf]) := by
    simp [syncRepoT, hs1, hs2]
  refine ⟨?_, by rw [heq], fun d' h => by simp [resolveWd, h],
    fun d' h => by simp [resolveWd, h]⟩
  have hd := pool_done_eq (syncRepo env) c hc targets s hr hh
  have hmem2 : syncRepo env dir ∈ (↑s.done : Multiset syncResult) := by
    rw [hd]
    exact Multiset.mem_map_of_mem _ (by exact_mod_cast hmem)
  have hval : syncRepo env dir
      = ⟨baseName dir, some "no git dir found", "", ""⟩ := by
    show (syncRepoT env dir).1 = _
    rw [heq]
  rw [hval] at hmem2
  exact_mod_cast hmem2

/-- Witness for C7: a one-target run against an environment with no
version-control metadata anywhere. -/
theorem no_checkout_failure_witness :
    (⟨baseName "./a", some "no git dir found", "", ""⟩ : syncResult)
      ∈ [syncRepo failEnv "./a"] ∧
    (syncRepoT failEnv "./a").2 = [Step.statDefault, Step.statSelf] ∧
    (∀ d', failEnv.stat (joinPath (joinPath d' "default") ".git") = true →
      resolveWd failEnv d' = joinPath d' "default") ∧
    (∀ d', failEnv.stat (joinPath (joinPath d' "default") ".git") = false →
      resolveWd failEnv d' = d') :=
  no_checkout_failure failEnv 1 ["./a"] "./a"
    ⟨[], 0, [syncRepo failEnv "./a"]⟩ (by norm_num) (by simp) rfl rfl
    (reaches_one (syncRepo failEnv) 1 (by norm_num) "./a")
    (halted_nil (syncRepo failEnv) 1 [syncRepo failEnv "./a"])

/-- Claim C5: with no stray arguments, the sync command exits successfully if and
only if the initial directory enumeration succeeded; when the enumeration
fails the wrapped error is surfaced and the exit status is the failure
status, and per-target outcomes (even all-failed ones) never affect the
exit status. -/
theorem exit_status_enumeration_only (rd : Except String (List DirEntry))
    (outs : List syncResult) :
    (executeSync 0 rd outs = 0 ↔ ∃ des, rd = .ok des) ∧
    (∀ e, rd = .error e →
      syncRunResult rd outs = .error ("sync: read .: " ++ e) ∧
      executeSync 0 rd outs = 1) := by
  cases rd with
  | ok des =>
    refine ⟨by simp [executeSync, syncRunResult], fun e he => by cases he⟩
  | error e =>
    refine ⟨by simp [executeSync, syncRunResult], fun e' he' => ?_⟩
    cases he'
    exact ⟨rfl, rfl⟩

/-- Witness for C5 at a concrete failing enumeration. -/
theorem exit_status_enumeration_only_witness :
    syncRunResult (.error "permission denied") []
      = .error ("sync: read .: " ++ "permission denied") ∧
    executeSync 0 (.error "permission denied") [] = 1 :=
  (exit_status_enumeration_only (.error "permission denied") []).2
    "permission denied" rfl

/-- The reporting loop, unrolled: the line for the `j`-th remaining outcome
uses counter value `i + j + 1`. -/
lemma runReportAux_eq (outs : List syncResult) : ∀ i : Nat,
    runReportAux i outs = outs.mapIdx (fun j r =>
      fmtInt4 (i + j + 1) ++ " " ++ r.dir ++ ": " ++
        (match r.err with
          | some e => e
          | none =>
            if r.oldRef = r.newRef then r.newRef
            else r.oldRef ++ " -> " ++ r.newRef)) := by
  induction outs with
  | nil => intro i; simp [runReportAux]
  | cons r rs ih =>
    intro i
    simp only [runReportAux, List.mapIdx_cons, ih (i + 1)]
    congr 1
    · cases hre : r.err with
      | some e => simp
      | none => by_cases hxy : r.oldRef = r.newRef <;> simp [hxy, String.append_assoc]
    · simp only [show ∀ j : Nat, i + 1 + j + 1 = i + (j + 1) + 1 from
        fun j => by omega]

/-- Claim C8: the reporter prints exactly one line per outcome: the 1-based
ordinal (in `%4d` format) and the outcome's name, then the failure text on
failure, the single revision when unchanged, and `old -> new` otherwise. -/
theorem reporter_format (outs : List syncResult) :
    runReport outs = outs.mapIdx (fun i r =>
      fmtInt4 (i + 1) ++ " " ++ r.dir ++ ": " ++
        (match r.err with
          | some e => e
          | none =>
            if r.oldRef = r.newRef then r.newRef
            else r.oldRef ++ " -> " ++ r.newRef)) ∧
    (runReport outs).length = outs.length := by
  have h := runReportAux_eq outs 0
  simp only [Nat.zero_add] at h
  exact ⟨h, by
    rw [show runReport outs = runReportAux 0 outs from rfl,
      runReportAux_eq outs 0]
    simp⟩
